import Mathlib

/-!
Verification development for the dbutil repository (Go).

Shallow embedding of:
* `pagination.go` — cursor pagination helpers (`EncodeCursor`, `DecodeCursor`,
  `ValidatePaginationParams`, `Paginate`);
* `gen/query_analyzer.go` — `extractParameters`;
* `gen/config.go` — `Config.Validate`, `Config.ShouldIncludeTable`.

Go byte values are modelled as `Nat` (< 256 where it matters), Go `int` as
unbounded `Int` (no claim exercises 64-bit overflow), and the one place where a
32-bit conversion occurs (`int32(params.Limit + 1)`) wraps explicitly.
`uuid.UUID` is a list of 16 bytes.
-/

namespace Dbutil

/-- Result of a fallible Go call: `true` iff the `error` return is non-nil. -/
def isErr {ε α : Type} : Except ε α → Bool
  | .error _ => true
  | .ok _ => false

instance {ε α : Type} [DecidableEq ε] [DecidableEq α] : DecidableEq (Except ε α)
  | .error a, .error b =>
      if h : a = b then .isTrue (by rw [h]) else .isFalse (by simp [h])
  | .error _, .ok _ => .isFalse (by simp)
  | .ok _, .error _ => .isFalse (by simp)
  | .ok a, .ok b =>
      if h : a = b then .isTrue (by rw [h]) else .isFalse (by simp [h])

/-! ### Go `encoding/base64`, `RawURLEncoding`

`EncodeToString` over the URL-safe alphabet without padding, and
`DecodeString`, which ignores CR/LF, rejects characters outside the alphabet
and a trailing quantum of one character, and (being non-strict) discards any
nonzero trailing padding bits of the final character. -/

/-- URL-safe base64 alphabet: index (0..63) to character. -/
def b64char (v : Nat) : Char :=
  if v < 26 then Char.ofNat (65 + v)
  else if v < 52 then Char.ofNat (97 + (v - 26))
  else if v < 62 then Char.ofNat (48 + (v - 52))
  else if v = 62 then Char.ofNat 45
  else Char.ofNat 95

/-- URL-safe base64 alphabet: character to index, `none` off the alphabet. -/
def b64val (c : Char) : Option Nat :=
  if 65 ≤ c.toNat ∧ c.toNat ≤ 90 then some (c.toNat - 65)
  else if 97 ≤ c.toNat ∧ c.toNat ≤ 122 then some (c.toNat - 97 + 26)
  else if 48 ≤ c.toNat ∧ c.toNat ≤ 57 then some (c.toNat - 48 + 52)
  else if c.toNat = 45 then some 62
  else if c.toNat = 95 then some 63
  else none

/-- Bytes to six-bit groups, exactly as the encoder emits them: full 3-byte
groups become 4 sextets; a trailing 2-byte group becomes 3 sextets and a
trailing single byte becomes 2 sextets (low bits zero-padded). -/
def encSextets : List Nat → List Nat
  | a :: b :: c :: rest =>
      a / 4 :: (a % 4 * 16 + b / 16) :: (b % 16 * 4 + c / 64) :: c % 64 :: encSextets rest
  | [a, b] => [a / 4, a % 4 * 16 + b / 16, b % 16 * 4]
  | [a] => [a / 4, a % 4 * 16]
  | [] => []

/-- Six-bit groups back to bytes, as Go's non-strict decoder assembles them:
4 sextets give 3 bytes, a trailing group of 3 gives 2 bytes and of 2 gives 1
byte (surplus low bits of the last sextet are discarded, not checked); a
trailing group of 1 is a corrupt-input error. -/
def decSextets : List Nat → Option (List Nat)
  | v0 :: v1 :: v2 :: v3 :: rest =>
      (decSextets rest).map fun r =>
        (v0 * 4 + v1 / 16) :: (v1 % 16 * 16 + v2 / 4) :: (v2 % 4 * 64 + v3) :: r
  | [v0, v1, v2] => some [v0 * 4 + v1 / 16, v1 % 16 * 16 + v2 / 4]
  | [v0, v1] => some [v0 * 4 + v1 / 16]
  | [_] => none
  | [] => some []

/-- Per-character table lookup of the decoder; `none` on the first character
outside the alphabet (Go's `CorruptInputError`). -/
def decodeVals : List Char → Option (List Nat)
  | [] => some []
  | c :: rest =>
      match b64val c, decodeVals rest with
      | some v, some vs => some (v :: vs)
      | _, _ => none

/-- Go `base64.RawURLEncoding.EncodeToString` on a byte list. -/
def rawUrlEncode (bytes : List Nat) : String :=
  String.mk ((encSextets bytes).map b64char)

/-- Go `base64.RawURLEncoding.DecodeString`: CR and LF are ignored, every
other character must be in the alphabet, and the sextets are reassembled
non-strictly. `none` models a returned `error`. -/
def rawUrlDecode (s : String) : Option (List Nat) :=
  match decodeVals (s.data.filter fun c => c.toNat ≠ 13 ∧ c.toNat ≠ 10) with
  | none => none
  | some vals => decSextets vals

/-! ### `pagination.go` -/

/-- `uuid.UUID` is a 16-byte value; modelled as a list of 16 bytes. -/
def uuidNil : List Nat := List.replicate 16 0

/-- `PaginationParams` (pagination.go): `Cursor *string`, `Limit int`. -/
structure PaginationParams where
  cursor : Option String
  limit : Int
  deriving DecidableEq, Repr

/-- `PaginationResult[T]` (pagination.go). -/
structure PaginationResult (T : Type) where
  items : List T
  nextCursor : Option String
  hasMore : Bool
  deriving DecidableEq, Repr

/-- `PaginationError` (pagination.go): operation, reason, wrapped error. -/
structure PaginationError where
  operation : String
  reason : String
  err : Option String
  deriving DecidableEq, Repr

/-- `EncodeCursor` (pagination.go): empty string for the nil UUID, otherwise
raw URL-safe base64 of the 16 bytes. -/
def EncodeCursor (id : List Nat) : String :=
  if id = uuidNil then "" else rawUrlEncode id

/-- `DecodeCursor` (pagination.go): empty cursor decodes to the nil UUID with
no error; otherwise base64-decode, require 16 bytes, reject the nil UUID. -/
def DecodeCursor (cursor : String) : Except PaginationError (List Nat) :=
  if cursor = "" then .ok uuidNil
  else
    match rawUrlDecode cursor with
    | none => .error ⟨"decode", "invalid cursor format", some "illegal base64 data"⟩
    | some data =>
        if data.length ≠ 16 then
          .error ⟨"decode", "invalid cursor length", some "expected 16 bytes"⟩
        else if data = uuidNil then
          .error ⟨"decode", "cursor represents nil UUID", none⟩
        else .ok data

/-- `ValidatePaginationParams` (pagination.go): rejects `Limit <= 0`, then
decodes the cursor when one is present and non-empty. -/
def ValidatePaginationParams (params : PaginationParams) : Except PaginationError Unit :=
  if params.limit ≤ 0 then .error ⟨"validate", "limit must be positive", none⟩
  else
    match params.cursor with
    | some c => if c ≠ "" then (DecodeCursor c).map (fun _ => ()) else .ok ()
    | none => .ok ()

/-- Go `int32(n)` for an `int` value `n`: two's-complement wrap to 32 bits. -/
def int32wrap (n : Int) : Int :=
  (n + 2 ^ 31) % 2 ^ 32 - 2 ^ 31

/-- `Paginate` (pagination.go). `getId` stands for the `HasID` interface's
`GetID`; `queryFunc` is the caller-supplied query (the `ctx` argument carries
no information in this model and is dropped). -/
def Paginate {T : Type} (getId : T → List Nat) (params : PaginationParams)
    (queryFunc : Option (List Nat) → Int → Except String (List T)) :
    Except PaginationError (PaginationResult T) :=
  match ValidatePaginationParams params with
  | .error e => .error e
  | .ok _ =>
    let cursorStep : Except PaginationError (Option (List Nat)) :=
      match params.cursor with
      | some c => if c ≠ "" then (DecodeCursor c).map some else .ok none
      | none => .ok none
    match cursorStep with
    | .error e => .error e
    | .ok cursorID =>
      match queryFunc cursorID (int32wrap (params.limit + 1)) with
      | .error e => .error ⟨"query", "failed to execute query", some e⟩
      | .ok items =>
        let hasMore : Bool := params.limit < (items.length : Int)
        let items2 := if hasMore then items.take params.limit.toNat else items
        let nextCursor : Option String :=
          if hasMore ∧ 0 < items2.length then
            match items2.getLast? with
            | some last => some (EncodeCursor (getId last))
            | none => none
          else none
        .ok ⟨items2, nextCursor, hasMore⟩

/-! ### Emitted shared pagination module (spec §4.5, artifact 1)

The code-generation templates that emit this module are not among the sources
here — only their tests are — so the emitted functions are modelled from the
spec's description of the module. -/

/-- Modelled from the spec: the emitted module's `PaginationParams` record —
opaque `cursor` string, `limit` integer. (The emitting template is missing
from the sources.) -/
structure GenPaginationParams where
  cursor : String
  limit : Int
  deriving DecidableEq, Repr

/-- Modelled from the spec: the emitted module's generic `PaginationResult`
record — items, next-cursor string, has-more flag. -/
structure GenPaginationResult (T : Type) where
  items : List T
  nextCursor : String
  hasMore : Bool
  deriving DecidableEq, Repr

/-- Modelled from the spec: the emitted module's private `encode_cursor` —
URL-safe base64, no padding, of the 16-byte UUID value. -/
def encodeCursor (id : List Nat) : String := rawUrlEncode id

/-- Modelled from the spec: the emitted module's private `decode_cursor` —
rejects the empty string, rejects base64 errors, requires exactly 16 decoded
bytes. -/
def decodeCursor (cursor : String) : Except String (List Nat) :=
  if cursor = "" then .error "empty cursor"
  else
    match rawUrlDecode cursor with
    | none => .error "invalid cursor format"
    | some data =>
        if data.length ≠ 16 then .error "invalid cursor length"
        else .ok data

/-- Modelled from the spec: the emitted module's private `validate` — fails if
`limit < 0`, fails if `limit > 100`, and validates the cursor if present. -/
def validatePaginationParams (params : GenPaginationParams) : Except String Unit :=
  if params.limit < 0 then .error "limit cannot be negative"
  else if 100 < params.limit then .error "limit cannot exceed 100"
  else if params.cursor ≠ "" then
    match decodeCursor params.cursor with
    | .error e => .error ("invalid cursor: " ++ e)
    | .ok _ => .ok ()
  else .ok ()

/-- Modelled from the spec: step 3 of the generated `list_paginated` method —
`limit = (params.limit == 0 ? 20 : min(params.limit, 100))`. -/
def effectiveLimit (limit : Int) : Int :=
  if limit = 0 then 20 else min limit 100

/-- Modelled from the spec: the generated per-table `list_paginated` method
(spec §4.5, pagination protocol steps 1–7); its emitting template is missing
from the sources. `queryFunc` stands for executing the canonical cursor query
and receives the `$1` (decoded cursor or NULL) and `$2` (limit) bindings. -/
def listPaginated {T : Type} (getId : T → List Nat) (params : GenPaginationParams)
    (queryFunc : Option (List Nat) → Int → Except String (List T)) :
    Except String (GenPaginationResult T) :=
  match validatePaginationParams params with
  | .error e => .error e
  | .ok _ =>
    let cursorStep : Except String (Option (List Nat)) :=
      if params.cursor = "" then .ok none else (decodeCursor params.cursor).map some
    match cursorStep with
    | .error e => .error e
    | .ok cur =>
      let lim := effectiveLimit params.limit
      match queryFunc cur (lim + 1) with
      | .error e => .error e
      | .ok items =>
        let hasMore : Bool := lim < (items.length : Int)
        let items2 := if hasMore then items.take lim.toNat else items
        let nextCursor : String :=
          if hasMore ∧ 0 < items2.length then
            match items2.getLast? with
            | some last => encodeCursor (getId last)
            | none => ""
          else ""
        .ok ⟨items2, nextCursor, hasMore⟩

/-! ### `gen/query_analyzer.go` — parameter extraction -/

/-! The captures of Go's `FindAllStringSubmatch` for the pattern
`\$(\d+)(?:\D|$)`: scan left to right; at a `$` followed by at least one
digit, capture the maximal digit run and also consume the one following
non-digit character when there is one (matches do not overlap), then continue
after the match. `scanDigits` accumulates the digit run after a `$` (`seen`
records whether a digit was read); `strconv.Atoi` overflow (captures of 2^63
and beyond) is not modelled, no claim exercises it. -/
mutual

/-- Regex-capture scan of a SQL text (see the section comment above). -/
def scanParams : List Char → List Nat
  | [] => []
  | c :: rest => if c = '$' then scanDigits 0 false rest else scanParams rest

/-- Digit-run accumulation of the capture scan. -/
def scanDigits (acc : Nat) (seen : Bool) : List Char → List Nat
  | [] => if seen then [acc] else []
  | c :: rest =>
    if c.isDigit then scanDigits (acc * 10 + (c.toNat - 48)) true rest
    else if seen then acc :: scanParams rest
    else if c = '$' then scanDigits 0 false rest
    else scanParams rest

end

/-- `Parameter` (gen/types.go, the shape `extractParameters` fills in). -/
structure Parameter where
  name : String
  type : String
  goType : String
  index : Nat
  deriving DecidableEq, Repr

/-- The `for i := 1; i <= n; i++` loop of `extractParameters`, with the loop
counter `i` and the remaining iteration count as the recursion argument:
build the parameter for each index in turn, failing at the first index not in
the found set. -/
def buildParams (found : List Nat) : Nat → Nat → Except String (List Parameter)
  | _, 0 => .ok []
  | i, k + 1 =>
    if i ∈ found then
      match buildParams found (i + 1) k with
      | .error e => .error e
      | .ok ps => .ok (⟨"param" ++ toString i, "text", "string", i⟩ :: ps)
    else .error ("parameter $" ++ toString i ++ " is missing (parameters must be sequential starting from $1)")

/-- `extractParameters` (gen/query_analyzer.go): regex captures over the raw
SQL text, a set of the seen indices (its size is the number of distinct
captures), then the sequential loop from 1 to that size. -/
def extractParameters (sql : String) : Except String (List Parameter) :=
  let found := scanParams sql.data
  if found = [] then .ok []
  else buildParams found 1 found.dedup.length

mutual

/-- Modelled from the spec: the `$N` placeholder tokens of a SQL text — every
`$` followed by a maximal non-empty digit run. Unlike the code's recognizer,
no character after the run is consumed, so adjacent placeholders all count. -/
def placeholderTokens : List Char → List Nat
  | [] => []
  | c :: rest => if c = '$' then tokenDigits 0 false rest else placeholderTokens rest

/-- Digit-run accumulation of the token scan. -/
def tokenDigits (acc : Nat) (seen : Bool) : List Char → List Nat
  | [] => if seen then [acc] else []
  | c :: rest =>
    if c.isDigit then tokenDigits (acc * 10 + (c.toNat - 48)) true rest
    else if seen then
      acc :: (if c = '$' then tokenDigits 0 false rest else placeholderTokens rest)
    else if c = '$' then tokenDigits 0 false rest
    else placeholderTokens rest

end

mutual

/-- Modelled from the spec: the comment-and-string-stripped view of a SQL
text — single-quoted string literals and `--` line comments removed (a
comment ends at its newline, which is kept). `stripInLit` is the inside of a
string literal, `stripInComment` the inside of a line comment, `stripDash`
the state after a single `-`. -/
def stripSqlText : List Char → List Char
  | [] => []
  | c :: rest =>
    if c = Char.ofNat 39 then stripInLit rest
    else if c = '-' then stripDash rest
    else c :: stripSqlText rest

/-- Stripping state after a single `-`. -/
def stripDash : List Char → List Char
  | [] => [Char.ofNat 45]
  | c :: rest =>
    if c = '-' then stripInComment rest
    else if c = Char.ofNat 39 then Char.ofNat 45 :: stripInLit rest
    else Char.ofNat 45 :: c :: stripSqlText rest

/-- Stripping state inside a string literal. -/
def stripInLit : List Char → List Char
  | [] => []
  | c :: rest => if c = Char.ofNat 39 then stripSqlText rest else stripInLit rest

/-- Stripping state inside a line comment. -/
def stripInComment : List Char → List Char
  | [] => []
  | c :: rest => if c = Char.ofNat 10 then c :: stripSqlText rest else stripInComment rest

end

/-! ### `gen/config.go` -/

/-- `Config` (gen/config.go). -/
structure Config where
  dsn : String
  schema : String
  outputDir : String
  packageName : String
  tables : Bool
  queriesDir : String
  «include» : List String
  exclude : List String
  verbose : Bool
  typeMappings : List (String × String)
  deriving DecidableEq, Repr

/-- The operating-system facts `Config.Validate` consults: the value of the
`TEST_DATABASE_URL` environment variable (empty when unset), whether a path
exists, and whether `MkdirAll` succeeds on a path. -/
structure OsEnv where
  testDatabaseUrl : String
  dirExists : String → Bool
  mkdirAllOk : String → Bool

/-- `Config.Validate` (gen/config.go): DSN (with the test-URL fallback), then
the mode check, then the queries-directory and output-directory checks. On
success returns the (possibly DSN-updated) config. -/
def Config.Validate (env : OsEnv) (c : Config) : Except String Config :=
  match (if c.dsn = "" then
           if env.testDatabaseUrl ≠ "" then .ok { c with dsn := env.testDatabaseUrl }
           else .error "database connection string (DSN) is required"
         else .ok c : Except String Config) with
  | .error e => .error e
  | .ok c1 =>
    if c1.tables = false ∧ c1.queriesDir = "" then
      .error "must enable either table generation (--tables) or query generation (--queries)"
    else if c1.queriesDir ≠ "" ∧ env.dirExists c1.queriesDir = false then
      .error ("queries directory does not exist: " ++ c1.queriesDir)
    else if env.mkdirAllOk c1.outputDir = false then
      .error "failed to create output directory"
    else .ok c1

/-! ### Go `path/filepath.Match` (ShouldIncludeTable's glob matcher)

`ShouldIncludeTable` discards `Match`'s error return, so a malformed pattern
behaves as a non-match; the model therefore returns a single `Bool` that is
`true` exactly when Go returns `matched = true` (which never happens together
with an error). -/

/-- Go `getEsc`: one endpoint of a character range inside `[...]`; `-` and
`]` are malformed here, a backslash escapes the following character. -/
def goGetEsc : List Char → Option (Char × List Char)
  | [] => none
  | c :: rest =>
      if c = '-' ∨ c = ']' then none
      else if c = Char.ofNat 92 then
        match rest with
        | [] => none
        | d :: rest2 => some (d, rest2)
      else some (c, rest)

/-- The range loop of `Match`'s `[...]` case: scan character ranges until the
closing `]` (which must come after at least one range), accumulating whether
`ch` fell in some range; `none` models `ErrBadPattern`. Each iteration
consumes at least one pattern character, so a fuel of the pattern's length
suffices; the recursion is on the fuel so that the function evaluates by
kernel reduction. -/
def classLoopFuel (ch : Char) : Nat → List Char → Nat → Bool → Option (Bool × List Char)
  | 0, _, _, _ => none
  | fuel + 1, p, nrange, acc =>
    match p with
    | ']' :: rest => if 0 < nrange then some (acc, rest) else none
    | _ =>
      match goGetEsc p with
      | none => none
      | some (lo, p1) =>
        match p1 with
        | '-' :: p2 =>
          match goGetEsc p2 with
          | none => none
          | some (hi, p3) =>
              classLoopFuel ch fuel p3 (nrange + 1)
                (acc || (decide (lo.toNat ≤ ch.toNat) && decide (ch.toNat ≤ hi.toNat)))
        | _ => classLoopFuel ch fuel p1 (nrange + 1) (acc || (lo == ch))

/-- The `[...]` range loop at its sufficient fuel. -/
def classLoop (ch : Char) (p : List Char) (nrange : Nat) (acc : Bool) :
    Option (Bool × List Char) :=
  classLoopFuel ch (p.length + 1) p nrange acc

/-- Go `path.Match` on character lists, in the standard recursive form
(equivalent to Go's chunk loop with star backtracking): `*` matches any run
of non-separator characters, `?` one non-separator character, `[...]` a
character class, a backslash escapes, and anything else matches itself.
Malformed patterns (Go's `ErrBadPattern`) yield `false`, as the caller
discards the error. Every recursive call consumes a pattern or a name
character, so the summed length is sufficient fuel. -/
def goMatchFuel : Nat → List Char → List Char → Bool
  | 0, _, _ => false
  | fuel + 1, pat, name =>
    match pat, name with
    | [], [] => true
    | [], _ :: _ => false
    | '*' :: p, n =>
        goMatchFuel fuel p n ||
          (match n with
           | [] => false
           | c :: n2 => decide (c ≠ '/') && goMatchFuel fuel ('*' :: p) n2)
    | '?' :: _, [] => false
    | '?' :: p, c :: n2 => decide (c ≠ '/') && goMatchFuel fuel p n2
    | '[' :: _, [] => false
    | '[' :: p, c :: n2 =>
        let negp : Bool × List Char :=
          match p with
          | '^' :: q => (true, q)
          | _ => (false, p)
        (match classLoop c negp.2 0 false with
         | none => false
         | some (m, p2) => (m != negp.1) && goMatchFuel fuel p2 n2)
    | pc :: p, n =>
        if pc = Char.ofNat 92 then
          match p, n with
          | [], _ => false
          | _ :: _, [] => false
          | e :: p2, c :: n2 => (e == c) && goMatchFuel fuel p2 n2
        else
          match n with
          | [] => false
          | c :: n2 => (pc == c) && goMatchFuel fuel p n2

/-- Go `filepath.Match(pattern, name)` with its error discarded, exactly as
`ShouldIncludeTable` calls it. -/
def goPathMatch (pattern name : String) : Bool :=
  goMatchFuel (pattern.data.length + name.data.length + 1) pattern.data name.data

/-- `Config.ShouldIncludeTable` (gen/config.go): exclude patterns first, then
include-all when no include patterns are configured, then the include
patterns. -/
def Config.ShouldIncludeTable (c : Config) (tableName : String) : Bool :=
  if c.exclude.any (fun pattern => goPathMatch pattern tableName) then false
  else if c.«include».isEmpty then true
  else c.«include».any (fun pattern => goPathMatch pattern tableName)

/-! ### Concrete SQL texts used to settle the parameter-extraction claims -/

/-- A single-quote character (built by code so the examples below can embed
SQL string literals). -/
def sqlQuote : String := String.mk [Char.ofNat 39]

/-- The analyzer test's own SQL with a dollar amount inside a string literal
(gen/query_analyzer_test.go, case "dollar sign in string literal"). -/
def sqlStringLiteralExample : String :=
  "SELECT " ++ sqlQuote ++ "$100" ++ sqlQuote ++ " as price, id FROM products WHERE id = $1"

/-- A SQL text whose `$2` occurs only inside a `--` line comment. -/
def sqlCommentExample : String := "UPDATE t SET a = $1 -- $2"

/-! ## Helper lemmas: the base64 round trip -/

theorem b64_table :
    ∀ v : Fin 64,
      b64val (b64char v.val) = some v.val
        ∧ (b64char v.val).toNat ≠ 13 ∧ (b64char v.val).toNat ≠ 10 := by
  decide

theorem b64val_b64char {v : Nat} (h : v < 64) : b64val (b64char v) = some v :=
  (b64_table ⟨v, h⟩).1

theorem b64char_not_crlf {v : Nat} (h : v < 64) :
    (b64char v).toNat ≠ 13 ∧ (b64char v).toNat ≠ 10 :=
  (b64_table ⟨v, h⟩).2

theorem encSextets_lt :
    ∀ l : List Nat, (∀ b ∈ l, b < 256) → ∀ v ∈ encSextets l, v < 64 := by
  intro l
  induction l using encSextets.induct with
  | case1 a b c rest ih =>
    intro h v hv
    have ha := h a (by simp)
    have hb := h b (by simp)
    have hc := h c (by simp)
    simp only [encSextets, List.mem_cons] at hv
    rcases hv with rfl | rfl | rfl | rfl | hv
    · omega
    · omega
    · omega
    · omega
    · exact ih (fun x hx => h x (by simp [hx])) v hv
  | case2 a b =>
    intro h v hv
    have ha := h a (by simp)
    have hb := h b (by simp)
    simp only [encSextets, List.mem_cons] at hv
    rcases hv with rfl | rfl | rfl | hv
    · omega
    · omega
    · omega
    · simp at hv
  | case3 a =>
    intro h v hv
    have ha := h a (by simp)
    simp only [encSextets, List.mem_cons] at hv
    rcases hv with rfl | rfl | hv
    · omega
    · omega
    · simp at hv
  | case4 =>
    intro _ v hv
    simp [encSextets] at hv

theorem decSextets_encSextets :
    ∀ l : List Nat, (∀ b ∈ l, b < 256) → decSextets (encSextets l) = some l := by
  intro l
  induction l using encSextets.induct with
  | case1 a b c rest ih =>
    intro h
    have ha := h a (by simp)
    have hb := h b (by simp)
    have hc := h c (by simp)
    have ih2 := ih (fun x hx => h x (by simp [hx]))
    simp only [encSextets, decSextets, ih2, Option.map_some', Option.some.injEq,
      List.cons.injEq, and_true]
    omega
  | case2 a b =>
    intro h
    have ha := h a (by simp)
    have hb := h b (by simp)
    simp only [encSextets, decSextets, Option.some.injEq, List.cons.injEq, and_true]
    omega
  | case3 a =>
    intro h
    have ha := h a (by simp)
    simp only [encSextets, decSextets, Option.some.injEq, List.cons.injEq, and_true]
    omega
  | case4 => intro _; rfl

theorem decodeVals_map_b64char :
    ∀ vs : List Nat, (∀ v ∈ vs, v < 64) → decodeVals (vs.map b64char) = some vs := by
  intro vs
  induction vs with
  | nil => intro _; rfl
  | cons v rest ih =>
    intro h
    have hv := h v (by simp)
    have ih2 := ih (fun x hx => h x (by simp [hx]))
    simp only [List.map_cons, decodeVals, b64val_b64char hv, ih2]

theorem filter_crlf_map_b64char :
    ∀ vs : List Nat, (∀ v ∈ vs, v < 64) →
      ((vs.map b64char).filter fun c => c.toNat ≠ 13 ∧ c.toNat ≠ 10) = vs.map b64char := by
  intro vs h
  rw [List.filter_eq_self]
  intro c hc
  rw [List.mem_map] at hc
  obtain ⟨v, hv, rfl⟩ := hc
  have := b64char_not_crlf (h v hv)
  simp [this.1, this.2]

theorem rawUrlDecode_rawUrlEncode {l : List Nat} (h : ∀ b ∈ l, b < 256) :
    rawUrlDecode (rawUrlEncode l) = some l := by
  have hlt := encSextets_lt l h
  simp only [rawUrlEncode, rawUrlDecode]
  simp only [filter_crlf_map_b64char _ hlt, decodeVals_map_b64char _ hlt,
    decSextets_encSextets l h]

theorem encSextets_ne_nil {l : List Nat} (h : l ≠ []) : encSextets l ≠ [] := by
  match l with
  | [] => exact absurd rfl h
  | [a] => simp [encSextets]
  | [a, b] => simp [encSextets]
  | a :: b :: c :: rest => simp [encSextets]

/-- `pagination.go` round trip: decoding an encoded UUID returns it with no
error (the nil UUID goes through the empty-string special cases). -/
theorem DecodeCursor_EncodeCursor {u : List Nat} (hlen : u.length = 16)
    (hb : ∀ b ∈ u, b < 256) : DecodeCursor (EncodeCursor u) = .ok u := by
  by_cases hnil : u = uuidNil
  · subst hnil
    rfl
  · have hne : u ≠ [] := by
      intro h
      rw [h] at hlen
      simp at hlen
    rw [EncodeCursor, if_neg hnil, DecodeCursor]
    have hs : rawUrlEncode u ≠ "" := by
      intro h
      have h2 : (rawUrlEncode u).data = [] := by rw [h]
      rw [rawUrlEncode] at h2
      simp only [List.map_eq_nil_iff] at h2
      exact encSextets_ne_nil hne h2
    rw [if_neg hs, rawUrlDecode_rawUrlEncode hb]
    simp [hlen, hnil]

/-- When the emitted module's `validate` succeeds and a cursor is present,
that cursor decodes successfully. -/
theorem validatePaginationParams_ok_decode (p : GenPaginationParams)
    (h : validatePaginationParams p = .ok ()) (hc : p.cursor ≠ "") :
    ∃ id, decodeCursor p.cursor = .ok id := by
  cases hdec : decodeCursor p.cursor with
  | ok id => exact ⟨id, rfl⟩
  | error e =>
    exfalso
    rw [validatePaginationParams] at h
    by_cases h1 : p.limit < 0
    · rw [if_pos h1] at h
      exact absurd h (by simp)
    · rw [if_neg h1] at h
      by_cases h2 : 100 < p.limit
      · rw [if_pos h2] at h
        exact absurd h (by simp)
      · rw [if_neg h2, if_pos hc, hdec] at h
        exact absurd h (by simp)

/-- When `ValidatePaginationParams` succeeds and a non-empty cursor is
present, that cursor decodes successfully. -/
theorem ValidatePaginationParams_ok_decode (params : PaginationParams)
    (h : ValidatePaginationParams params = .ok ()) :
    ∀ c, params.cursor = some c → c ≠ "" → ∃ id, DecodeCursor c = .ok id := by
  intro c hc hne
  cases hdec : DecodeCursor c with
  | ok id => exact ⟨id, rfl⟩
  | error e =>
    exfalso
    rw [ValidatePaginationParams] at h
    by_cases h1 : params.limit ≤ 0
    · rw [if_pos h1] at h
      exact absurd h (by simp)
    · rw [if_neg h1, hc] at h
      simp only [if_pos hne, hdec] at h
      exact absurd h (by simp [Except.map])

/-! ## Claims -/

/-- C3: the emitted pagination module's `validate` fails for every limit
below 0, fails for every limit above 100, succeeds only when a present cursor
decodes, accepts limit 100 and rejects limit 101. -/
theorem validatePaginationParams_bounds :
    (∀ p : GenPaginationParams, p.limit < 0 → isErr (validatePaginationParams p) = true)
    ∧ (∀ p : GenPaginationParams, 100 < p.limit → isErr (validatePaginationParams p) = true)
    ∧ (∀ p : GenPaginationParams, validatePaginationParams p = .ok () → p.cursor ≠ "" →
        isErr (decodeCursor p.cursor) = false)
    ∧ validatePaginationParams ⟨"", 100⟩ = .ok ()
    ∧ isErr (validatePaginationParams ⟨"", 101⟩) = true := by
  refine ⟨?_, ?_, ?_, by decide, by decide⟩
  · intro p h
    rw [validatePaginationParams, if_pos h]
    rfl
  · intro p h
    rw [validatePaginationParams, if_neg (by omega), if_pos h]
    rfl
  · intro p hok hc
    obtain ⟨id, hid⟩ := validatePaginationParams_ok_decode p hok hc
    rw [hid]
    rfl

/-- C3 witness: limits -1 and 101 are rejected, and a validated cursor has
decoded successfully. -/
theorem validatePaginationParams_bounds_witness :
    isErr (validatePaginationParams ⟨"", -1⟩) = true
    ∧ isErr (validatePaginationParams ⟨"", 101⟩) = true
    ∧ isErr (decodeCursor (GenPaginationParams.cursor ⟨"AAAAAAAAAAAAAAAAAAAAAQ", 10⟩)) = false :=
  ⟨validatePaginationParams_bounds.1 ⟨"", -1⟩ (by decide),
   validatePaginationParams_bounds.2.1 ⟨"", 101⟩ (by decide),
   validatePaginationParams_bounds.2.2.1 ⟨"AAAAAAAAAAAAAAAAAAAAAQ", 10⟩ (by decide) (by decide)⟩

/-- C4: the emitted pagination module's `decode_cursor` errors on the empty
string, on every string the URL-safe base64 decoder rejects, and on every
string whose decoded byte length is not 16. -/
theorem decodeCursor_rejections :
    isErr (decodeCursor "") = true
    ∧ (∀ s : String, rawUrlDecode s = none → isErr (decodeCursor s) = true)
    ∧ (∀ (s : String) (d : List Nat), rawUrlDecode s = some d → d.length ≠ 16 →
        isErr (decodeCursor s) = true) := by
  refine ⟨rfl, ?_, ?_⟩
  · intro s h
    by_cases hs : s = ""
    · subst hs
      rfl
    · rw [decodeCursor, if_neg hs, h]
      rfl
  · intro s d h hlen
    by_cases hs : s = ""
    · subst hs
      rfl
    · rw [decodeCursor, if_neg hs, h]
      simp [isErr, hlen]

/-- C4 witness: a non-base64 string and a short base64 string are both
rejected. -/
theorem decodeCursor_rejections_witness :
    isErr (decodeCursor "!!!") = true ∧ isErr (decodeCursor "AAAA") = true :=
  ⟨decodeCursor_rejections.2.1 "!!!" (by decide),
   decodeCursor_rejections.2.2 "AAAA" [0, 0, 0] (by decide) (by decide)⟩

/-- C2: the generated paginated method turns limit 0 into effective limit 20
and any positive limit into `min(limit, 100)`, and hands the query exactly
`effective limit + 1` as the `$2` binding (shown by a probe query function
that reports the bound it received). -/
theorem listPaginated_limit_binding :
    ∀ params : GenPaginationParams,
      validatePaginationParams params = .ok () →
      (∀ (T : Type) (getId : T → List Nat),
          listPaginated getId params (fun _ bound => .error (toString bound)) =
            .error (toString (effectiveLimit params.limit + 1)))
      ∧ effectiveLimit 0 = 20
      ∧ (∀ l : Int, 0 < l → effectiveLimit l = min l 100) := by
  intro params hv
  refine ⟨?_, rfl, ?_⟩
  · intro T getId
    by_cases hc : params.cursor = ""
    · simp only [listPaginated, hv, hc, if_pos]
    · obtain ⟨id, hid⟩ := validatePaginationParams_ok_decode params hv hc
      simp only [listPaginated, hv, if_neg hc, hid, Except.map]
  · intro l hl
    rw [effectiveLimit, if_neg (by omega)]

/-- C2 witness: with limit 0 the probe query reports a bound of 21 = 20 + 1. -/
theorem listPaginated_limit_binding_witness :
    listPaginated (fun _ : Unit => uuidNil) ⟨"", 0⟩ (fun _ bound => .error (toString bound)) =
      .error (toString (effectiveLimit (0 : Int) + 1)) :=
  (listPaginated_limit_binding ⟨"", 0⟩ (by decide)).1 Unit (fun _ => uuidNil)

/-- C8: `Config.Validate` fails whenever table mode is off and no queries
directory is set; with a mode enabled (and the unrelated checks satisfied)
validation passes. -/
theorem Config_Validate_requires_mode :
    ∀ (env : OsEnv) (c : Config),
      (c.tables = false → c.queriesDir = "" → isErr (Config.Validate env c) = true)
      ∧ ((c.tables = true ∨ c.queriesDir ≠ "") → c.dsn ≠ "" →
          (c.queriesDir ≠ "" → env.dirExists c.queriesDir = true) →
          env.mkdirAllOk c.outputDir = true →
          Config.Validate env c = .ok c) := by
  intro env c
  constructor
  · intro ht hq
    rw [Config.Validate]
    split
    · rfl
    · rename_i c1 heq
      have hfields : c1.tables = c.tables ∧ c1.queriesDir = c.queriesDir := by
        split at heq
        · split at heq
          · simp only [Except.ok.injEq] at heq
            subst heq
            exact ⟨rfl, rfl⟩
          · exact absurd heq (by simp)
        · simp only [Except.ok.injEq] at heq
          subst heq
          exact ⟨rfl, rfl⟩
      rw [if_pos ⟨by rw [hfields.1, ht], by rw [hfields.2, hq]⟩]
      rfl
  · intro hmode hdsn hdir hmk
    have hnotmode : ¬(c.tables = false ∧ c.queriesDir = "") := by
      rcases hmode with h | h
      · intro hcontra
        rw [h] at hcontra
        exact absurd hcontra.1 (by simp)
      · intro hcontra
        exact h hcontra.2
    have hnotdir : ¬(c.queriesDir ≠ "" ∧ env.dirExists c.queriesDir = false) := by
      intro hcontra
      rw [hdir hcontra.1] at hcontra
      exact absurd hcontra.2 (by simp)
    simp only [Config.Validate, if_neg hdsn, if_neg hnotmode, if_neg hnotdir, hmk]
    rfl

/-- C8 witness: neither mode enabled is rejected; enabling tables passes. -/
theorem Config_Validate_requires_mode_witness :
    isErr (Config.Validate ⟨"", fun _ => true, fun _ => true⟩
        ⟨"d", "public", "out", "repositories", false, "", [], [], false, []⟩) = true
    ∧ Config.Validate ⟨"", fun _ => true, fun _ => true⟩
        ⟨"d", "public", "out", "repositories", true, "", [], [], false, []⟩ =
      .ok ⟨"d", "public", "out", "repositories", true, "", [], [], false, []⟩ :=
  ⟨(Config_Validate_requires_mode _ _).1 rfl rfl,
   (Config_Validate_requires_mode _ _).2 (Or.inl rfl) (by decide) (fun h => rfl)
     rfl⟩

/-- C9: exclude globs beat include globs in `ShouldIncludeTable`: an excluded
name is out even when included; with no include patterns every non-excluded
name is in; otherwise exactly the non-excluded names matching an include
pattern are in. -/
theorem ShouldIncludeTable_exclude_precedence :
    ∀ (c : Config) (tableName : String),
      ((∃ pat ∈ c.exclude, goPathMatch pat tableName = true) →
          c.ShouldIncludeTable tableName = false)
      ∧ ((∀ pat ∈ c.exclude, goPathMatch pat tableName = false) → c.«include» = [] →
          c.ShouldIncludeTable tableName = true)
      ∧ ((∀ pat ∈ c.exclude, goPathMatch pat tableName = false) → c.«include» ≠ [] →
          (c.ShouldIncludeTable tableName = true ↔
            ∃ pat ∈ c.«include», goPathMatch pat tableName = true)) := by
  intro c tableName
  have hexf : (∀ pat ∈ c.exclude, goPathMatch pat tableName = false) →
      (c.exclude.any fun pattern => goPathMatch pattern tableName) = false := by
    intro hall
    rw [List.any_eq_false]
    intro pat hp
    simp [hall pat hp]
  refine ⟨?_, ?_, ?_⟩
  · intro hex
    have hany : (c.exclude.any fun pattern => goPathMatch pattern tableName) = true :=
      List.any_eq_true.mpr hex
    rw [Config.ShouldIncludeTable, if_pos hany]
  · intro hall hinc
    rw [Config.ShouldIncludeTable, if_neg (by simp [hexf hall]),
      if_pos (by simp [hinc])]
  · intro hall hinc
    rw [Config.ShouldIncludeTable, if_neg (by simp [hexf hall]),
      if_neg (by simp [List.isEmpty_iff, hinc])]
    exact List.any_eq_true

/-- C9 witness: `temp_users` matches the include glob `*` but the exclude
glob `temp_*` wins; `users` is included. -/
theorem ShouldIncludeTable_exclude_precedence_witness :
    Config.ShouldIncludeTable
        ⟨"d", "public", "out", "repo", true, "", ["*"], ["temp_*"], false, []⟩
        "temp_users" = false
    ∧ Config.ShouldIncludeTable
        ⟨"d", "public", "out", "repo", true, "", ["*"], ["temp_*"], false, []⟩
        "users" = true :=
  ⟨(ShouldIncludeTable_exclude_precedence _ "temp_users").1 (by decide),
   ((ShouldIncludeTable_exclude_precedence _ "users").2.2 (by decide) (by decide)).mpr
     (by decide)⟩

/-- C1: for validated params and any item list the query returns, `Paginate`
reports `has_more` exactly when more than `limit` items came back, truncates
to the first `limit` items in that case, and sets the next cursor to the
encoded id of the last returned item exactly when `has_more` holds and the
truncated list is non-empty, leaving it empty otherwise. -/
theorem Paginate_pagination_protocol :
    ∀ {T : Type} (getId : T → List Nat) (params : PaginationParams) (items : List T),
      ValidatePaginationParams params = .ok () →
      ∃ r : PaginationResult T,
        Paginate getId params (fun _ _ => .ok items) = .ok r
        ∧ r.hasMore = decide (params.limit < (items.length : Int))
        ∧ r.items = (if params.limit < (items.length : Int)
            then items.take params.limit.toNat else items)
        ∧ r.nextCursor = (if params.limit < (items.length : Int) ∧ 0 < r.items.length
            then r.items.getLast?.map (fun t => EncodeCursor (getId t)) else none) := by
  intro T getId params items hv
  obtain ⟨cur, hcur⟩ : ∃ cur, (match params.cursor with
      | some c => if c ≠ "" then (DecodeCursor c).map some else .ok none
      | none => (.ok none : Except PaginationError (Option (List Nat)))) = .ok cur := by
    match hcc : params.cursor with
    | none => exact ⟨none, rfl⟩
    | some c =>
      by_cases hne : c ≠ ""
      · obtain ⟨id, hid⟩ := ValidatePaginationParams_ok_decode params hv c hcc hne
        exact ⟨some id, by simp [if_pos hne, hid, Except.map]⟩
      · exact ⟨none, by simp [hne]⟩
  have heval : Paginate getId params (fun _ _ => .ok items) = .ok
      ⟨if params.limit < (items.length : Int) then items.take params.limit.toNat else items,
       (if params.limit < (items.length : Int) ∧
           0 < (if params.limit < (items.length : Int)
                then items.take params.limit.toNat else items).length
        then (if params.limit < (items.length : Int) then items.take params.limit.toNat
              else items).getLast?.map (fun t => EncodeCursor (getId t))
        else none),
       decide (params.limit < (items.length : Int))⟩ := by
    simp only [Paginate, hv, hcur]
    by_cases hlt : params.limit < (items.length : Int)
    · cases hg : (items.take params.limit.toNat).getLast? <;> simp [hlt, hg]
    · simp [hlt]
  exact ⟨_, heval, rfl, rfl, rfl⟩

/-- C1 witness: limit 2, three items returned: two items kept, `has_more`
set, next cursor present. -/
theorem Paginate_pagination_protocol_witness :
    ∃ r : PaginationResult Unit,
      Paginate (fun _ => uuidNil) ⟨none, 2⟩ (fun _ _ => .ok [(), (), ()]) = .ok r
      ∧ r.hasMore = decide ((2 : Int) < (([(), (), ()] : List Unit).length : Int))
      ∧ r.items = (if (2 : Int) < (([(), (), ()] : List Unit).length : Int)
          then ([(), (), ()] : List Unit).take (2 : Int).toNat else [(), (), ()])
      ∧ r.nextCursor = (if (2 : Int) < (([(), (), ()] : List Unit).length : Int) ∧ 0 < r.items.length
          then r.items.getLast?.map (fun t => EncodeCursor ((fun _ => uuidNil) t)) else none) :=
  Paginate_pagination_protocol (fun _ => uuidNil) ⟨none, 2⟩ [(), (), ()] (by decide)

/-- C10: at the public interface, `EncodeCursor` maps the nil UUID to the
empty string, `DecodeCursor` maps the empty string to the nil UUID with no
error, and every non-empty cursor decoding to 16 zero bytes is rejected. -/
theorem cursor_nil_uuid_interface :
    EncodeCursor uuidNil = ""
    ∧ DecodeCursor "" = .ok uuidNil
    ∧ (∀ s : String, s ≠ "" → rawUrlDecode s = some uuidNil →
        isErr (DecodeCursor s) = true) := by
  refine ⟨rfl, rfl, ?_⟩
  intro s hs h
  rw [DecodeCursor, if_neg hs, h]
  rfl

/-- C10 witness: the 22-character all-`A` cursor decodes to 16 zero bytes and
is rejected. -/
theorem cursor_nil_uuid_interface_witness :
    isErr (DecodeCursor "AAAAAAAAAAAAAAAAAAAAAA") = true :=
  cursor_nil_uuid_interface.2.2 "AAAAAAAAAAAAAAAAAAAAAA" (by decide) (by decide)

/-- C6: the dense-token contract fails on the code. On the repository's own
analyzer-test SQL the comment-and-string-stripped placeholder-token set is
exactly the dense set with 1 element, so the claim (and the test, which
expects no error) requires success with one parameter; `extractParameters`
instead errors, because its recognizer runs on the raw text, also sees the
`$100` inside the string literal, and finds the raw index set non-dense. -/
theorem extractParameters_dense_tokens_bug :
    placeholderTokens (stripSqlText sqlStringLiteralExample.data) = [1]
    ∧ scanParams sqlStringLiteralExample.data = [100, 1]
    ∧ extractParameters sqlStringLiteralExample =
        .error "parameter $2 is missing (parameters must be sequential starting from $1)" :=
  ⟨rfl, rfl, rfl⟩

/-- C7: the recognition-scope contract fails on the code. In
`sqlCommentExample` the token `$2` occurs only inside a line comment — the
stripped view has token set with only index 1 — yet `extractParameters`
counts it and returns two parameters, because the regex is applied to the
raw SQL, not to a comment-and-string-stripped view. -/
theorem extractParameters_comment_scope_bug :
    placeholderTokens (stripSqlText sqlCommentExample.data) = [1]
    ∧ extractParameters sqlCommentExample =
        .ok [⟨"param1", "text", "string", 1⟩, ⟨"param2", "text", "string", 2⟩] :=
  ⟨rfl, rfl⟩

/-- C5 counterexample: the half of the claim saying that every string that is
not the encoding of a UUID decodes with an error is false. The string
`AAAAAAAAAAAAAAAAAAAAAR` is not `EncodeCursor` of any UUID (encodings are
canonical, with zero trailing padding bits), yet the non-strict base64
decoder accepts it and `DecodeCursor` returns the UUID 00…01 without error. -/
theorem DecodeCursor_noncanonical_counterexample :
    ¬ (∀ s : String,
        (∀ u : List Nat, u.length = 16 → (∀ b ∈ u, b < 256) → EncodeCursor u ≠ s) →
        isErr (DecodeCursor s) = true) := by
  intro hclaim
  have hnotenc : ∀ u : List Nat, u.length = 16 → (∀ b ∈ u, b < 256) →
      EncodeCursor u ≠ "AAAAAAAAAAAAAAAAAAAAAR" := by
    intro u hlen hb heq
    have hrt := DecodeCursor_EncodeCursor hlen hb
    rw [heq] at hrt
    have hval : DecodeCursor "AAAAAAAAAAAAAAAAAAAAAR" =
        .ok (List.replicate 15 0 ++ [1]) := rfl
    rw [hval] at hrt
    simp only [Except.ok.injEq] at hrt
    subst hrt
    exact absurd heq (by decide)
  exact absurd (hclaim "AAAAAAAAAAAAAAAAAAAAAR" hnotenc) (by decide)

/-- C5 amended: the round trip holds for every UUID, and `DecodeCursor` is
total — on every string it either returns an explicit error, returns the nil
UUID for the empty string, or returns the non-nil 16-byte value the string
base64-decodes to (the decoder being non-strict, such a string need not be
the canonical encoding of that value). -/
theorem DecodeCursor_roundtrip_and_total :
    (∀ u : List Nat, u.length = 16 → (∀ b ∈ u, b < 256) →
        DecodeCursor (EncodeCursor u) = .ok u)
    ∧ (∀ s : String,
        isErr (DecodeCursor s) = true
        ∨ (s = "" ∧ DecodeCursor s = .ok uuidNil)
        ∨ (∃ d, rawUrlDecode s = some d ∧ d.length = 16 ∧ d ≠ uuidNil
            ∧ DecodeCursor s = .ok d)) := by
  constructor
  · intro u hlen hb
    exact DecodeCursor_EncodeCursor hlen hb
  · intro s
    by_cases hs : s = ""
    · subst hs
      exact Or.inr (Or.inl ⟨rfl, rfl⟩)
    · cases hd : rawUrlDecode s with
      | none =>
        left
        rw [DecodeCursor, if_neg hs, hd]
        rfl
      | some d =>
        by_cases hlen : d.length = 16
        · by_cases hnil : d = uuidNil
          · left
            subst hnil
            rw [DecodeCursor, if_neg hs, hd]
            rfl
          · refine Or.inr (Or.inr ⟨d, rfl, hlen, hnil, ?_⟩)
            rw [DecodeCursor, if_neg hs, hd]
            simp [hlen, hnil]
        · left
          rw [DecodeCursor, if_neg hs, hd]
          simp [isErr, hlen]

/-- C5 witness: the round trip at the UUID 000102…0f, and the totality
disjunction at the string `x`. -/
theorem DecodeCursor_roundtrip_and_total_witness :
    DecodeCursor (EncodeCursor (List.range 16)) = .ok (List.range 16)
    ∧ (isErr (DecodeCursor "x") = true
        ∨ ("x" = "" ∧ DecodeCursor "x" = .ok uuidNil)
        ∨ (∃ d, rawUrlDecode "x" = some d ∧ d.length = 16 ∧ d ≠ uuidNil
            ∧ DecodeCursor "x" = .ok d)) :=
  ⟨DecodeCursor_roundtrip_and_total.1 (List.range 16) (by decide) (by decide),
   DecodeCursor_roundtrip_and_total.2 "x"⟩

end Dbutil
